import Mathlib

/-
Verification of the fd-serial software UART (src/fd-serial.c) against its
natural-language specification.

The module is shallowly embedded: the single global `struct fd_uart` instance
together with the AVR peripheral registers touched by the code becomes one
Lean structure `State`; every C function and interrupt handler becomes a pure
`State → State` function (interrupt handlers that sample the RX pin take the
sampled level as a `Bool` argument, standing for the `PINB & S1_RX_PIN` read).
Machine integers are modelled as `Nat` with explicit wrap-around (`% 256`,
`% 2 ^ 32`) exactly where the C types make overflow possible.

The repository ships only fd-serial.c; the header fd-serial.h (the field
declarations of `struct fd_uart` and the pin macros) is not present. Field
widths and the pin masks are therefore modelled from the specification and
from the comments in fd-serial.c: `S1_TX_PIN` is PORTB3 (mask 8), `S1_RX_PIN`
is PORTB2 (mask 4), the byte/counter fields are `uint8_t` and `delay` is
`uint32_t` (it is assigned from the `uint32_t` value `cycles`).

The C code is compiled either with or without `RING_BUFFER`; both variants of
the receive side are embedded (`tickB_single` / `tickB_ring`, and likewise for
`fdserial_recv` and `fdserial_available`), with the ring capacity `N` a
parameter (`RING_BUFFER`).
-/

namespace FdSerial

/-- SERIAL_TOP from fd-serial.c: timer top value for 9600 bps at 8 MHz, CK/4. -/
def SERIAL_TOP : Nat := 207

/-- SERIAL_HALFBIT from fd-serial.c: half a bit period in timer counts. -/
def SERIAL_HALFBIT : Nat := 104

/-- PRESCALER from fd-serial.c: (1 << CS11) | (1 << CS10) = 3, selecting CK/4. -/
def PRESCALER : Nat := 3

/-- PRESCALER_DIVISOR from fd-serial.c. -/
def PRESCALER_DIVISOR : Nat := 4

/-- CPU_FREQ from fd-serial.c (default build). -/
def CPU_FREQ : Nat := 8000000

/-- Modelled from the spec: S1_TX_PIN is the PORTB3 mask (1 << 3); the macro
lives in the missing header fd-serial.h, the pin assignment is stated in the
header comment of fd-serial.c (TX is connected to PORTB3). -/
def S1_TX_PIN : Nat := 8

/-- Modelled from the spec: S1_RX_PIN is the PORTB2 mask (1 << 2); the macro
lives in the missing header fd-serial.h, the pin assignment is stated in the
header comment of fd-serial.c (RX is connected to PORTB2 or INT0). -/
def S1_RX_PIN : Nat := 4

/-- Bit mask for OCIE1A in TIMSK (bit 6 on the ATtiny85): A-compare enable. -/
def OCIE1A_MASK : Nat := 64

/-- Bit mask for OCIE1B in TIMSK (bit 5 on the ATtiny85): B-compare enable. -/
def OCIE1B_MASK : Nat := 32

/-- Bit mask for OCF1B in TIFR (bit 5 on the ATtiny85). -/
def OCF1B_MASK : Nat := 32

/-- Bit mask for INT0 in GIMSK (bit 6 on the ATtiny85). -/
def INT0_MASK : Nat := 64

/-- Bit mask for INTF0 in GIFR (bit 6 on the ATtiny85). -/
def INTF0_MASK : Nat := 64

/-- Bit mask for ISC01 in MCUCR (bit 1 on the ATtiny85). -/
def ISC01_MASK : Nat := 2

/-- Bit mask for CTC1 in TCCR1 (bit 7 on the ATtiny85). -/
def CTC1_MASK : Nat := 128

/-- Clearing a mask on an 8-bit register: the C idiom `r &= ~m`. -/
def clear8 (r m : Nat) : Nat := r &&& (255 ^^^ m)

/-- Wrapping decrement of a `uint8_t`, the C pre-decrement `--x`. -/
def dec8 (x : Nat) : Nat := (x + 255) % 256

/-- Wrapping decrement of a `uint32_t`, the C pre-decrement `--x`. -/
def dec32 (x : Nat) : Nat := (x + (2 ^ 32 - 1)) % 2 ^ 32

/-- The combined state: the fields of `struct fd_uart` (fd-serial.h is not in
the repository snapshot; the fields are exactly the ones fd-serial.c uses, with
widths modelled from the spec) together with the peripheral registers written
by fd-serial.c. All register and byte fields hold their 8-bit values as `Nat`;
`delay` is the 32-bit field; `rx_buf` is the ring-mode buffer. -/
structure State where
  send_ready : Nat
  tx_state : Nat
  send_byte : Nat
  send_bits : Nat
  delay : Nat
  available : Nat
  rx_state : Nat
  recv_shift : Nat
  recv_bits : Nat
  recv_byte : Nat
  rx_head : Nat
  rx_tail : Nat
  rx_buf : List Nat
  TCCR1 : Nat
  GIMSK : Nat
  GIFR : Nat
  TIMSK : Nat
  TIFR : Nat
  MCUCR : Nat
  TCNT1 : Nat
  OCR1A : Nat
  OCR1B : Nat
  OCR1C : Nat
  DDRB : Nat
  PORTB : Nat
deriving DecidableEq

/-- The A-compare (TX tick) interrupt is enabled: OCIE1A set in TIMSK. -/
def txTickEnabled (s : State) : Bool := s.TIMSK.testBit 6

/-- The B-compare (RX tick) interrupt is enabled: OCIE1B set in TIMSK. -/
def rxTickEnabled (s : State) : Bool := s.TIMSK.testBit 5

/-- The INT0 edge detector is enabled: INT0 set in GIMSK. -/
def int0Enabled (s : State) : Bool := s.GIMSK.testBit 6

/-- The level currently driven on the TX line (PORTB3). -/
def txLevel (s : State) : Bool := s.PORTB.testBit 3

/-- starttimer from fd-serial.c: `TCCR1 |= PRESCALER`. -/
def starttimer (s : State) : State := { s with TCCR1 := s.TCCR1 ||| PRESCALER }

/-- stoptimer from fd-serial.c: `TCCR1 &= ~PRESCALER`. -/
def stoptimer (s : State) : State := { s with TCCR1 := clear8 s.TCCR1 PRESCALER }

/-- enable_int0 from fd-serial.c: clear pending INTF0, then set INT0. -/
def enable_int0 (s : State) : State :=
  { s with GIFR := s.GIFR ||| INTF0_MASK, GIMSK := s.GIMSK ||| INT0_MASK }

/-- disable_int0 from fd-serial.c: `GIMSK &= ~(1 << INT0)`. -/
def disable_int0 (s : State) : State := { s with GIMSK := clear8 s.GIMSK INT0_MASK }

/-- start_tx from fd-serial.c: `TIMSK |= 1 << OCIE1A`. -/
def start_tx (s : State) : State := { s with TIMSK := s.TIMSK ||| OCIE1A_MASK }

/-- stop_tx from fd-serial.c: `TIMSK &= ~(1 << OCIE1A)`. -/
def stop_tx (s : State) : State := { s with TIMSK := clear8 s.TIMSK OCIE1A_MASK }

/-- start_rx from fd-serial.c: clear pending OCF1B, then set OCIE1B. -/
def start_rx (s : State) : State :=
  { s with TIFR := s.TIFR ||| OCF1B_MASK, TIMSK := s.TIMSK ||| OCIE1B_MASK }

/-- stop_rx from fd-serial.c: `TIMSK &= ~(1 << OCIE1B)`. -/
def stop_rx (s : State) : State := { s with TIMSK := clear8 s.TIMSK OCIE1B_MASK }

/-- fdserial_init from fd-serial.c, writes in source order. `ctc_mode | com_mode`
is `(1 << CTC1) | 0 = 128`, assigned (not or-ed) into TCCR1 after stoptimer. -/
def fdserial_init (s : State) : State :=
  let s := { s with send_ready := 1, tx_state := 0, available := 0, rx_state := 0,
                    rx_head := 0, rx_tail := 0 }
  let s := { s with MCUCR := s.MCUCR ||| ISC01_MASK }
  let s := { s with TCNT1 := 0, OCR1A := 16, OCR1B := 32, OCR1C := SERIAL_TOP }
  let s := { s with DDRB := s.DDRB ||| S1_TX_PIN }
  let s := { s with PORTB := s.PORTB ||| S1_TX_PIN }
  let s := { s with DDRB := clear8 s.DDRB S1_RX_PIN }
  let s := { s with PORTB := s.PORTB ||| S1_RX_PIN }
  let s := stoptimer s
  let s := { s with TCCR1 := CTC1_MASK }
  let s := starttimer s
  enable_int0 s

/-- fdserial_available, single-slot build: returns the `available` field. -/
def fdserial_available_single (s : State) : Nat := s.available

/-- Conversion of an `int` value to a (signed) `char`, as gcc on AVR does it:
wrap into the range -128 ..= 127. -/
def chr8 (x : Int) : Int := (x + 128) % 256 - 128

/-- Conversion of an `int` value to the `uint8_t` return value. -/
def u8 (x : Int) : Nat := (x % 256).toNat

/-- fdserial_available, RING_BUFFER build:
`char d = rx_head - rx_tail; if (d < 0) return d + RING_BUFFER; return d;`. -/
def fdserial_available_ring (N : Nat) (s : State) : Nat :=
  let d : Int := chr8 ((s.rx_head : Int) - (s.rx_tail : Int))
  if d < 0 then u8 (d + N) else u8 d

/-- fdserial_sendok from fd-serial.c. -/
def fdserial_sendok (s : State) : Nat := s.send_ready

/-- fdserial_send from fd-serial.c, after the busy-wait on `send_ready` has
completed (theorems carry the hypothesis `send_ready = 1` for the wait). -/
def fdserial_send (b : Nat) (s : State) : State :=
  let s := { s with OCR1A := s.TCNT1 }
  let s := { s with send_ready := 0, send_byte := b, tx_state := 1 }
  start_tx s

/-- Manual ring-index increment from fd-serial.c:
`if (x == RING_BUFFER - 1) x = 0; else x++;`. -/
def wrapIdx (N x : Nat) : Nat := if x = N - 1 then 0 else x + 1

/-- fdserial_recv, RING_BUFFER build, after the busy-wait on
`rx_head ≠ rx_tail`: read `rx_buf[rx_tail]`, advance the tail. -/
def fdserial_recv_ring (N : Nat) (s : State) : Nat × State :=
  let c := s.rx_buf.getD s.rx_tail 0
  (c, { s with rx_tail := wrapIdx N s.rx_tail })

/-- fdserial_recv, single-slot build, after the busy-wait on `available`:
read `recv_byte`, zero it, clear `available`. -/
def fdserial_recv_single (s : State) : Nat × State :=
  (s.recv_byte, { s with recv_byte := 0, available := 0 })

/-- timer_ticks in fdserial_alarm: `(duration * CPU_FREQ) / PRESCALER_DIVISOR
/ 1000`, computed in `uint32_t` (the product wraps at 2 ^ 32). -/
def alarmTicks (duration : Nat) : Nat :=
  duration * CPU_FREQ % 2 ^ 32 / PRESCALER_DIVISOR / 1000

/-- cycles in fdserial_alarm: `timer_ticks / (SERIAL_TOP + 1)`. -/
def alarmCycles (duration : Nat) : Nat := alarmTicks duration / (SERIAL_TOP + 1)

/-- remainder in fdserial_alarm: `timer_ticks - cycles * (SERIAL_TOP + 1)`,
stored into a `uint8_t`. -/
def alarmRemainder (duration : Nat) : Nat :=
  (alarmTicks duration - alarmCycles duration * (SERIAL_TOP + 1)) % 256

/-- fdserial_alarm from fd-serial.c, after the busy-wait on `send_ready`:
`OCR1A = TCNT1 - remainder` in `uint8_t` arithmetic, then program the Delay
state. Note the source enables no interrupt here. -/
def fdserial_alarm (duration : Nat) (s : State) : State :=
  let s := { s with OCR1A := (s.TCNT1 + 256 - alarmRemainder duration) % 256 }
  { s with delay := alarmCycles duration, send_ready := 0, tx_state := 5 }

/-- fdserial_delay is fdserial_alarm followed by a spin on `send_ready`; the
state transformation is that of fdserial_alarm. -/
def fdserial_delay (duration : Nat) (s : State) : State := fdserial_alarm duration s

/-- ISR(TIMER1_COMPA_vect) from fd-serial.c: one A-compare (TX) tick. Each
case writes the fields the C case writes (the data-bit case drives the pin
from bit 0 of `send_byte`, shifts the byte, pre-decrements `send_bits` and
moves to StopBit exactly when the decremented count is zero; the Delay case
pre-decrements `delay` and restores Idle exactly when it reaches zero). -/
def tickA (s : State) : State :=
  if s.tx_state = 0 then s
  else if s.tx_state = 1 then
    { s with PORTB := clear8 s.PORTB S1_TX_PIN, tx_state := 2, send_bits := 8 }
  else if s.tx_state = 2 then
    { s with
      PORTB := if s.send_byte &&& 1 ≠ 0 then s.PORTB ||| S1_TX_PIN
               else clear8 s.PORTB S1_TX_PIN,
      send_byte := s.send_byte >>> 1,
      send_bits := dec8 s.send_bits,
      tx_state := if dec8 s.send_bits = 0 then 3 else s.tx_state }
  else if s.tx_state = 3 then
    { s with PORTB := s.PORTB ||| S1_TX_PIN, tx_state := 4 }
  else if s.tx_state = 4 then
    stop_tx { s with send_ready := 1, tx_state := 0 }
  else if s.tx_state = 5 then
    { s with
      delay := dec32 s.delay,
      send_ready := if dec32 s.delay = 0 then 1 else s.send_ready,
      tx_state := if dec32 s.delay = 0 then 0 else s.tx_state }
  else s

/-- ISR(TIMER1_COMPB_vect) from fd-serial.c, single-slot build. `bit` is the
level sampled from the RX pin at handler entry (`PINB & S1_RX_PIN`). -/
def tickB_single (bit : Bool) (s : State) : State :=
  if s.rx_state = 0 ∨ s.rx_state = 1 then
    { s with rx_state := 2, recv_bits := 8 }
  else if s.rx_state = 2 then
    { s with
      recv_shift := if bit then (s.recv_shift >>> 1) ||| 128 else s.recv_shift >>> 1,
      recv_bits := dec8 s.recv_bits,
      rx_state := if dec8 s.recv_bits = 0 then 3 else s.rx_state }
  else if s.rx_state = 3 then
    if bit then
      enable_int0 (stop_rx
        { s with recv_byte := s.recv_shift, available := 1, rx_state := 0 })
    else s
  else s

/-- ISR(TIMER1_COMPB_vect) from fd-serial.c, RING_BUFFER build with capacity
`N`. `bit` is the level sampled from the RX pin at handler entry. -/
def tickB_ring (N : Nat) (bit : Bool) (s : State) : State :=
  if s.rx_state = 0 ∨ s.rx_state = 1 then
    { s with rx_state := 2, recv_bits := 8 }
  else if s.rx_state = 2 then
    { s with
      recv_shift := if bit then (s.recv_shift >>> 1) ||| 128 else s.recv_shift >>> 1,
      recv_bits := dec8 s.recv_bits,
      rx_state := if dec8 s.recv_bits = 0 then 3 else s.rx_state }
  else if s.rx_state = 3 then
    if bit then
      enable_int0 (stop_rx
        { s with
          rx_buf := s.rx_buf.set s.rx_head s.recv_shift,
          rx_head := wrapIdx N s.rx_head,
          rx_tail := if wrapIdx N s.rx_head = s.rx_tail then wrapIdx N s.rx_tail
                     else s.rx_tail,
          rx_state := 0 })
    else s
  else s

/-- ISR(INT0_vect) from fd-serial.c: read the counter, schedule the B compare
half a bit after the falling edge, disable INT0, enable the B tick. -/
def ISR_INT0 (s : State) : State :=
  start_rx (disable_int0
    (if SERIAL_HALFBIT ≤ s.TCNT1 then { s with OCR1B := s.TCNT1 - SERIAL_HALFBIT }
     else { s with OCR1B := s.TCNT1 + SERIAL_HALFBIT }))

/-- The CTC counter semantics from the spec (timer hardware, not repository
code): a counter that was read as `start` at the moment of an event holds
`(start + t) % (SERIAL_TOP + 1)` a further `t` clock counts later, because the
counter resets to zero on reaching SERIAL_TOP. -/
def counterAt (start t : Nat) : Nat := (start + t) % (SERIAL_TOP + 1)

/-- List of TX levels after each of `n` successive A-compare ticks. -/
def txTrace : Nat → State → List Bool
  | 0, _ => []
  | n + 1, s => txLevel (tickA s) :: txTrace n (tickA s)

/-- Run the B-compare handler (single-slot build) over a list of sampled
levels, in time order. -/
def runB (l : List Bool) (s : State) : State :=
  l.foldl (fun st b => tickB_single b st) s

/-- The byte whose bit `i` is the `i`-th element of the list: LSB-first value
of a list of bits. -/
def natOfBits : List Bool → Nat
  | [] => 0
  | b :: t => (if b then 1 else 0) + 2 * natOfBits t

/-- A power-on reset state: all registers and fields zero (AVR registers reset
to zero), with a four-slot ring buffer (RING_BUFFER = 4). -/
def resetState : State :=
  { send_ready := 0, tx_state := 0, send_byte := 0, send_bits := 0, delay := 0,
    available := 0, rx_state := 0, recv_shift := 0, recv_bits := 0, recv_byte := 0,
    rx_head := 0, rx_tail := 0, rx_buf := [0, 0, 0, 0],
    TCCR1 := 0, GIMSK := 0, GIFR := 0, TIMSK := 0, TIFR := 0, MCUCR := 0,
    TCNT1 := 0, OCR1A := 0, OCR1B := 0, OCR1C := 0, DDRB := 0, PORTB := 0 }

/-- One publication by the receive engine in ring mode: the AwaitHigh step of
the B handler with the line sampled high and `recv_shift` holding byte `b`. -/
def ringPublish (N b : Nat) (s : State) : State :=
  tickB_ring N true { s with rx_state := 3, recv_shift := b }

/-! ### Generic helper lemmas about bits and the ring index arithmetic -/

theorem testBit_lor_true {m i : Nat} (x : Nat) (hm : m.testBit i = true) :
    (x ||| m).testBit i = true := by
  simp [Nat.testBit_lor, hm]

theorem testBit_land_false {m i : Nat} (x : Nat) (hm : m.testBit i = false) :
    (x &&& m).testBit i = false := by
  simp [Nat.testBit_land, hm]

theorem testBit_lor_skip {m i : Nat} (x : Nat) (hm : m.testBit i = false) :
    (x ||| m).testBit i = x.testBit i := by
  simp [Nat.testBit_lor, hm]

theorem testBit_land_keep {m i : Nat} (x : Nat) (hm : m.testBit i = true) :
    (x &&& m).testBit i = x.testBit i := by
  simp [Nat.testBit_land, hm]

theorem wrapIdx_lt {N x : Nat} (hN : 0 < N) (hx : x < N) : wrapIdx N x < N := by
  unfold wrapIdx
  split <;> omega

theorem wrapIdx_ne {N x : Nat} (hN : 2 ≤ N) (hx : x < N) : wrapIdx N x ≠ x := by
  unfold wrapIdx
  split <;> omega

/-- The ring-mode available count, in closed form: for in-range indices the C
signed-char subtraction computes `(rx_head + N - rx_tail) % N`. -/
theorem avail_ring_eq (N : Nat) (s : State) (hN0 : 0 < N) (hN : N ≤ 128)
    (hh : s.rx_head < N) (ht : s.rx_tail < N) :
    fdserial_available_ring N s = (s.rx_head + N - s.rx_tail) % N := by
  have hx : chr8 ((s.rx_head : Int) - (s.rx_tail : Int)) =
      (s.rx_head : Int) - (s.rx_tail : Int) := by
    unfold chr8
    omega
  unfold fdserial_available_ring
  rw [hx]
  rcases Nat.lt_or_ge s.rx_head s.rx_tail with hlt | hge
  · rw [if_pos (by omega : (s.rx_head : Int) - (s.rx_tail : Int) < 0)]
    rw [Nat.mod_eq_of_lt (by omega : s.rx_head + N - s.rx_tail < N)]
    unfold u8
    omega
  · rw [if_neg (by omega : ¬ (s.rx_head : Int) - (s.rx_tail : Int) < 0)]
    have h1 : s.rx_head + N - s.rx_tail = (s.rx_head - s.rx_tail) + N := by omega
    rw [h1, Nat.add_mod_right, Nat.mod_eq_of_lt (by omega : s.rx_head - s.rx_tail < N)]
    unfold u8
    omega

/-! ### C1: enabling and disabling of the A-compare interrupt -/

/-- The state after calling fdserial_alarm(1) right after fdserial_init from
the power-on reset state. -/
def c1AlarmState : State := fdserial_alarm 1 (fdserial_init resetState)

/-- A Delay-mode state one tick before expiry with the A tick enabled. -/
def c1ExpiryState : State := tickA { c1AlarmState with TIMSK := 64, delay := 1 }

/-- C1: evidence of the code bug. fdserial_alarm sets `tx_state` to Delay (5)
but leaves the A-compare interrupt disabled (no `_start_tx` call), so the
claimed invariant "A-compare enabled iff `tx_state ≠ Idle`" fails immediately
after an alarm, and the Delay expiry tick restores Idle while leaving the
interrupt enabled (no `_stop_tx` call). Consequently fdserial_delay called
after fdserial_init spins forever: the countdown interrupt can never fire. -/
theorem c1_alarm_ticks_not_enabled :
    c1AlarmState.tx_state = 5 ∧ txTickEnabled c1AlarmState = false ∧
    c1ExpiryState.tx_state = 0 ∧ c1ExpiryState.send_ready = 1 ∧
    txTickEnabled c1ExpiryState = true := by
  decide

/-! ### C2: ring-mode overflow scenario -/

/-- The state after the receive engine publishes 1, 2, 3, 4, 5, 6 into a
RING_BUFFER = 4 ring with no intervening reads, starting from init. -/
def c2Publishes : State :=
  [1, 2, 3, 4, 5, 6].foldl (fun s b => ringPublish 4 b s) (fdserial_init resetState)

/-- First read after the six publications. -/
def c2r1 : Nat × State := fdserial_recv_ring 4 c2Publishes

/-- Second read. -/
def c2r2 : Nat × State := fdserial_recv_ring 4 c2r1.2

/-- Third read. -/
def c2r3 : Nat × State := fdserial_recv_ring 4 c2r2.2

/-- C2: counterexample. After publishing 1..6 into the N = 4 ring, the first
fdserial_recv returns 4, not 3 as the claim states: the producer drops the
oldest byte every time its head advance collides with the tail, which happens
on each of the publications of 4, 5 and 6, dropping 1, 2 and 3. -/
theorem c2_ring_overflow_counterexample : c2r1.1 ≠ 3 ∧ c2r1.1 = 4 := by
  decide

/-- C2 (amended): after the six publications only three bytes remain; the
successive reads return 4, then 5, then 6, and the ring is then empty
(`rx_head = rx_tail`), the oldest three bytes having been dropped. -/
theorem c2_ring_overflow_amended :
    c2r1.1 = 4 ∧ c2r2.1 = 5 ∧ c2r3.1 = 6 ∧ c2r3.2.rx_head = c2r3.2.rx_tail := by
  decide

/-! ### C6: fdserial_alarm arithmetic -/

/-- The state after fdserial_alarm(1) when the counter reads 100. -/
def c6State : State := fdserial_alarm 1 { fdserial_init resetState with TCNT1 := 100 }

/-- C6: counterexample. For duration 1 ms the code programs the countdown to
`floor(2000 / 208) = 9` bit periods, not `ceil(2000 / 208) = 10` as claimed;
and with the counter at 100 the back-dated compare value is
`(100 - 128) mod 256 = 228`, which exceeds SERIAL_TOP = 207, so it is not a
valid compare value (the CTC counter never reaches it). -/
theorem c6_alarm_counterexample :
    c6State.delay = 9 ∧
    (alarmTicks 1 + SERIAL_TOP) / (SERIAL_TOP + 1) = 10 ∧
    c6State.delay ≠ (alarmTicks 1 + SERIAL_TOP) / (SERIAL_TOP + 1) ∧
    207 < c6State.OCR1A := by
  decide

/-- C6 (amended): for every duration, once `send_ready` is observed,
fdserial_alarm programs the Delay countdown to
`floor(((ms * F) mod 2^32) / P / 1000 / (TOP + 1))` whole-bit periods,
back-dates OCR_A by the remainder in 8-bit arithmetic (the written value lies
in [0, 255] and may exceed TOP), clears `send_ready`, sets `tx_state` to
Delay, and leaves the interrupt mask unchanged. -/
theorem c6_alarm_amended (d : Nat) (s : State) (h : s.send_ready = 1) :
    (fdserial_alarm d s).delay = alarmCycles d ∧
    (fdserial_alarm d s).OCR1A = (s.TCNT1 + 256 - alarmRemainder d) % 256 ∧
    (fdserial_alarm d s).OCR1A ≤ 255 ∧
    (fdserial_alarm d s).send_ready = 0 ∧
    (fdserial_alarm d s).tx_state = 5 ∧
    (fdserial_alarm d s).TIMSK = s.TIMSK := by
  refine ⟨rfl, rfl, ?_, rfl, rfl, rfl⟩
  exact Nat.le_of_lt_succ (Nat.mod_lt _ (by norm_num))

/-- C6 witness: the amended theorem applied at duration 1 from the init
state. -/
theorem c6_alarm_amended_witness :
    (fdserial_init resetState).send_ready = 1 ∧
    ((fdserial_alarm 1 (fdserial_init resetState)).delay = alarmCycles 1 ∧
     (fdserial_alarm 1 (fdserial_init resetState)).OCR1A =
       ((fdserial_init resetState).TCNT1 + 256 - alarmRemainder 1) % 256 ∧
     (fdserial_alarm 1 (fdserial_init resetState)).OCR1A ≤ 255 ∧
     (fdserial_alarm 1 (fdserial_init resetState)).send_ready = 0 ∧
     (fdserial_alarm 1 (fdserial_init resetState)).tx_state = 5 ∧
     (fdserial_alarm 1 (fdserial_init resetState)).TIMSK =
       (fdserial_init resetState).TIMSK) :=
  ⟨by decide, c6_alarm_amended 1 (fdserial_init resetState) (by decide)⟩

/-! ### C8: fdserial_init -/

/-- A prior state with the A tick enabled and a stale `send_byte`. -/
def c8Prior : State := { resetState with TIMSK := 64, send_byte := 7 }

/-- C8: counterexample. fdserial_init never writes TIMSK, so from a prior
state with OCIE1A set the TX tick is still enabled after init, and it does not
clear `send_byte` (nor `send_bits`, `recv_shift`, `recv_bits`, `recv_byte`,
`delay`), refuting "for every prior state ... the TX and RX tick interrupts
are disabled" and "all UART state fields are cleared". -/
theorem c8_init_counterexample :
    txTickEnabled (fdserial_init c8Prior) = true ∧
    (fdserial_init c8Prior).send_byte = 7 := by
  decide

/-- C8 (amended): after fdserial_init from any prior state: `send_ready` is
true, `tx_state`, `available`, `rx_state`, `rx_head`, `rx_tail` are zero; the
remaining UART fields and the interrupt mask TIMSK are unchanged (so the two
tick interrupts are disabled whenever the prior state had them disabled, in
particular from the power-on reset state); the edge detector is enabled with
its pending flag cleared; the timer top is SERIAL_TOP with CTC mode and the
prescaler installed (timer running); the TX pin is an output driven high and
the RX pin an input with pull-up; the falling-edge select bit is set. -/
theorem c8_init_amended (s : State) :
    (fdserial_init s).send_ready = 1 ∧ (fdserial_init s).tx_state = 0 ∧
    (fdserial_init s).available = 0 ∧ (fdserial_init s).rx_state = 0 ∧
    (fdserial_init s).rx_head = 0 ∧ (fdserial_init s).rx_tail = 0 ∧
    (fdserial_init s).send_byte = s.send_byte ∧
    (fdserial_init s).send_bits = s.send_bits ∧
    (fdserial_init s).recv_shift = s.recv_shift ∧
    (fdserial_init s).recv_bits = s.recv_bits ∧
    (fdserial_init s).recv_byte = s.recv_byte ∧
    (fdserial_init s).delay = s.delay ∧
    (fdserial_init s).TIMSK = s.TIMSK ∧
    (s.TIMSK = 0 → txTickEnabled (fdserial_init s) = false ∧
                   rxTickEnabled (fdserial_init s) = false) ∧
    int0Enabled (fdserial_init s) = true ∧
    (fdserial_init s).GIFR.testBit 6 = true ∧
    (fdserial_init s).OCR1C = SERIAL_TOP ∧
    (fdserial_init s).TCNT1 = 0 ∧
    (fdserial_init s).OCR1A = 16 ∧ (fdserial_init s).OCR1B = 32 ∧
    (fdserial_init s).TCCR1 = 131 ∧
    (fdserial_init s).DDRB.testBit 3 = true ∧
    (fdserial_init s).PORTB.testBit 3 = true ∧
    (fdserial_init s).DDRB.testBit 2 = false ∧
    (fdserial_init s).PORTB.testBit 2 = true ∧
    (fdserial_init s).MCUCR.testBit 1 = true := by
  refine ⟨rfl, rfl, rfl, rfl, rfl, rfl, rfl, rfl, rfl, rfl, rfl, rfl, rfl,
    ?_, ?_, ?_, rfl, rfl, rfl, rfl, ?_, ?_, ?_, ?_, ?_, ?_⟩
  · intro h
    constructor
    · show (fdserial_init s).TIMSK.testBit 6 = false
      have : (fdserial_init s).TIMSK = s.TIMSK := rfl
      rw [this, h]
      exact Nat.zero_testBit 6
    · show (fdserial_init s).TIMSK.testBit 5 = false
      have : (fdserial_init s).TIMSK = s.TIMSK := rfl
      rw [this, h]
      exact Nat.zero_testBit 5
  · show ((s.GIMSK ||| INT0_MASK)).testBit 6 = true
    exact testBit_lor_true _ (by decide)
  · show ((s.GIFR ||| INTF0_MASK)).testBit 6 = true
    exact testBit_lor_true _ (by decide)
  · show CTC1_MASK ||| PRESCALER = 131
    decide
  · show (clear8 (s.DDRB ||| S1_TX_PIN) S1_RX_PIN).testBit 3 = true
    rw [clear8, testBit_land_keep _ (by decide)]
    exact testBit_lor_true _ (by decide)
  · show ((s.PORTB ||| S1_TX_PIN) ||| S1_RX_PIN).testBit 3 = true
    rw [testBit_lor_skip _ (by decide)]
    exact testBit_lor_true _ (by decide)
  · show (clear8 (s.DDRB ||| S1_TX_PIN) S1_RX_PIN).testBit 2 = false
    exact testBit_land_false _ (by decide)
  · show ((s.PORTB ||| S1_TX_PIN) ||| S1_RX_PIN).testBit 2 = true
    exact testBit_lor_true _ (by decide)
  · show (s.MCUCR ||| ISC01_MASK).testBit 1 = true
    exact testBit_lor_true _ (by decide)

/-- C8 witness: the amended theorem applied at the power-on reset state. -/
theorem c8_init_amended_witness :
    (fdserial_init resetState).send_ready = 1 ∧ (fdserial_init resetState).tx_state = 0 ∧
    (fdserial_init resetState).available = 0 ∧ (fdserial_init resetState).rx_state = 0 ∧
    (fdserial_init resetState).rx_head = 0 ∧ (fdserial_init resetState).rx_tail = 0 ∧
    (fdserial_init resetState).send_byte = resetState.send_byte ∧
    (fdserial_init resetState).send_bits = resetState.send_bits ∧
    (fdserial_init resetState).recv_shift = resetState.recv_shift ∧
    (fdserial_init resetState).recv_bits = resetState.recv_bits ∧
    (fdserial_init resetState).recv_byte = resetState.recv_byte ∧
    (fdserial_init resetState).delay = resetState.delay ∧
    (fdserial_init resetState).TIMSK = resetState.TIMSK ∧
    (resetState.TIMSK = 0 → txTickEnabled (fdserial_init resetState) = false ∧
                   rxTickEnabled (fdserial_init resetState) = false) ∧
    int0Enabled (fdserial_init resetState) = true ∧
    (fdserial_init resetState).GIFR.testBit 6 = true ∧
    (fdserial_init resetState).OCR1C = SERIAL_TOP ∧
    (fdserial_init resetState).TCNT1 = 0 ∧
    (fdserial_init resetState).OCR1A = 16 ∧ (fdserial_init resetState).OCR1B = 32 ∧
    (fdserial_init resetState).TCCR1 = 131 ∧
    (fdserial_init resetState).DDRB.testBit 3 = true ∧
    (fdserial_init resetState).PORTB.testBit 3 = true ∧
    (fdserial_init resetState).DDRB.testBit 2 = false ∧
    (fdserial_init resetState).PORTB.testBit 2 = true ∧
    (fdserial_init resetState).MCUCR.testBit 1 = true :=
  c8_init_amended resetState

/-! ### C5: the INT0 edge handler and receive sampling alignment -/

/-- The compare value written by the edge handler, in both branch form and
modular form. -/
theorem ISR_INT0_OCR1B (s : State) :
    (ISR_INT0 s).OCR1B =
      if SERIAL_HALFBIT ≤ s.TCNT1 then s.TCNT1 - SERIAL_HALFBIT
      else s.TCNT1 + SERIAL_HALFBIT := by
  unfold ISR_INT0 start_rx disable_int0
  by_cases hc : SERIAL_HALFBIT ≤ s.TCNT1
  · rw [if_pos hc, if_pos hc]
  · rw [if_neg hc, if_neg hc]

/-- C5: for every in-range counter value, the INT0 handler writes
`tcnt - HALFBIT` when `tcnt ≥ HALFBIT` and `tcnt + HALFBIT` otherwise, which
equals `(tcnt + HALFBIT) mod (TOP + 1)` and lies in `[0, TOP]`; the CTC
counter next equals that compare value exactly at offsets congruent to
HALFBIT modulo TOP + 1 (so the first B-compare fires HALFBIT counts after the
edge and subsequent ones every TOP + 1 counts); the handler disables INT0 and
enables the B tick. -/
theorem c5_edge_schedule (s : State) (t : Nat) (h : s.TCNT1 ≤ SERIAL_TOP) :
    ((ISR_INT0 s).OCR1B =
      if SERIAL_HALFBIT ≤ s.TCNT1 then s.TCNT1 - SERIAL_HALFBIT
      else s.TCNT1 + SERIAL_HALFBIT) ∧
    (ISR_INT0 s).OCR1B = (s.TCNT1 + SERIAL_HALFBIT) % (SERIAL_TOP + 1) ∧
    (ISR_INT0 s).OCR1B ≤ SERIAL_TOP ∧
    int0Enabled (ISR_INT0 s) = false ∧
    rxTickEnabled (ISR_INT0 s) = true ∧
    (counterAt s.TCNT1 t = (ISR_INT0 s).OCR1B ↔
      t % (SERIAL_TOP + 1) = SERIAL_HALFBIT) := by
  have hb := ISR_INT0_OCR1B s
  have hg : int0Enabled (ISR_INT0 s) = false := by
    unfold ISR_INT0 start_rx disable_int0 int0Enabled clear8
    by_cases hc : SERIAL_HALFBIT ≤ s.TCNT1
    · rw [if_pos hc]
      exact testBit_land_false _ (by decide)
    · rw [if_neg hc]
      exact testBit_land_false _ (by decide)
  have hr : rxTickEnabled (ISR_INT0 s) = true := by
    unfold ISR_INT0 start_rx disable_int0 rxTickEnabled
    by_cases hc : SERIAL_HALFBIT ≤ s.TCNT1
    · rw [if_pos hc]
      exact testBit_lor_true _ (by decide)
    · rw [if_neg hc]
      exact testBit_lor_true _ (by decide)
  refine ⟨hb, ?_, ?_, hg, hr, ?_⟩
  · rw [hb]
    simp only [SERIAL_HALFBIT, SERIAL_TOP] at h ⊢
    split <;> omega
  · rw [hb]
    simp only [SERIAL_HALFBIT, SERIAL_TOP] at h ⊢
    split <;> omega
  · rw [hb]
    unfold counterAt
    simp only [SERIAL_HALFBIT, SERIAL_TOP] at h ⊢
    split <;> omega

/-- The concrete edge state for the C5 witness: counter read 50. -/
def c5S : State := { resetState with TCNT1 := 50 }

/-- C5 witness: the theorem applied at counter phase 50 and offset 104. -/
theorem c5_edge_schedule_witness :
    c5S.TCNT1 ≤ SERIAL_TOP ∧
    (((ISR_INT0 c5S).OCR1B =
      if SERIAL_HALFBIT ≤ c5S.TCNT1 then c5S.TCNT1 - SERIAL_HALFBIT
      else c5S.TCNT1 + SERIAL_HALFBIT) ∧
    (ISR_INT0 c5S).OCR1B = (c5S.TCNT1 + SERIAL_HALFBIT) % (SERIAL_TOP + 1) ∧
    (ISR_INT0 c5S).OCR1B ≤ SERIAL_TOP ∧
    int0Enabled (ISR_INT0 c5S) = false ∧
    rxTickEnabled (ISR_INT0 c5S) = true ∧
    (counterAt c5S.TCNT1 104 = (ISR_INT0 c5S).OCR1B ↔
      104 % (SERIAL_TOP + 1) = SERIAL_HALFBIT)) :=
  ⟨by decide, c5_edge_schedule c5S 104 (by decide)⟩

/-! ### Per-state characterizations of the tick handlers -/

/-- The A tick from StartBit: drive the line low, arm eight data bits. -/
theorem tickA_start (s : State) (h : s.tx_state = 1) :
    tickA s = { s with PORTB := clear8 s.PORTB S1_TX_PIN, tx_state := 2,
                       send_bits := 8 } := by
  unfold tickA
  rw [h]
  norm_num

/-- The A tick from DataBit: drive bit 0, shift, decrement, StopBit at zero. -/
theorem tickA_data (s : State) (h : s.tx_state = 2) :
    tickA s = { s with
      PORTB := if s.send_byte &&& 1 ≠ 0 then s.PORTB ||| S1_TX_PIN
               else clear8 s.PORTB S1_TX_PIN,
      send_byte := s.send_byte >>> 1,
      send_bits := dec8 s.send_bits,
      tx_state := if dec8 s.send_bits = 0 then 3 else 2 } := by
  unfold tickA
  rw [h]
  norm_num

/-- The A tick from StopBit: drive the line high, go to Return. -/
theorem tickA_stop (s : State) (h : s.tx_state = 3) :
    tickA s = { s with PORTB := s.PORTB ||| S1_TX_PIN, tx_state := 4 } := by
  unfold tickA
  rw [h]
  norm_num

/-- The A tick from Return: set ready, restore Idle, disable the A tick. -/
theorem tickA_return (s : State) (h : s.tx_state = 4) :
    tickA s = stop_tx { s with send_ready := 1, tx_state := 0 } := by
  unfold tickA
  rw [h]
  norm_num

/-- The level driven in the data-bit case is bit 0 of the byte register. -/
theorem level_of_bit (p y : Nat) :
    (if y &&& 1 ≠ 0 then p ||| S1_TX_PIN else clear8 p S1_TX_PIN).testBit 3 =
      y.testBit 0 := by
  rw [Nat.and_one_is_mod, Nat.testBit_zero]
  by_cases h : y % 2 = 1
  · rw [if_pos (by omega), testBit_lor_true _ (by decide)]
    simp [h]
  · rw [if_neg (by omega), clear8, testBit_land_false _ (by decide)]
    simp [h]

/-! ### C3: the transmit waveform -/

/-- Traces compose over consecutive runs of ticks. -/
theorem txTrace_add (m n : Nat) (s : State) :
    txTrace (m + n) s = txTrace m s ++ txTrace n (tickA^[m] s) := by
  induction m generalizing s with
  | zero => simp [txTrace]
  | succ m ih =>
      have hmn : m + 1 + n = (m + n) + 1 := by omega
      rw [hmn]
      show txLevel (tickA s) :: txTrace (m + n) (tickA s) = _
      rw [ih (tickA s), Function.iterate_succ_apply]
      rfl

/-- The data-bit phase: from DataBit with `send_bits = k` (`1 ≤ k ≤ 8`), the
next `k` ticks drive bits `0 .. k-1` of `send_byte` on the TX line, the state
then being StopBit with `send_ready` untouched. -/
theorem tx_data_phase (k : Nat) : ∀ s : State, s.tx_state = 2 → s.send_bits = k →
    1 ≤ k → k ≤ 8 →
    txTrace k s = (List.range k).map s.send_byte.testBit ∧
    (tickA^[k] s).tx_state = 3 ∧
    (tickA^[k] s).send_ready = s.send_ready := by
  induction k with
  | zero => intro s _ _ h1 _; omega
  | succ k ih =>
    intro s h2 hb h1 h8
    have hstep := tickA_data s h2
    by_cases hk : k = 0
    · subst hk
      have hz : dec8 s.send_bits = 0 := by rw [hb]; decide
      have hone : tickA^[1] s = tickA s := rfl
      refine ⟨?_, ?_, ?_⟩
      · show [txLevel (tickA s)] = [s.send_byte.testBit 0]
        rw [hstep]
        show [(if s.send_byte &&& 1 ≠ 0 then s.PORTB ||| S1_TX_PIN
               else clear8 s.PORTB S1_TX_PIN).testBit 3] = _
        rw [level_of_bit]
      · rw [hone, hstep]
        show (if dec8 s.send_bits = 0 then 3 else 2) = 3
        rw [if_pos hz]
      · rw [hone, hstep]
    · have hk1 : 1 ≤ k := by omega
      have hz : dec8 s.send_bits ≠ 0 := by
        rw [hb]
        unfold dec8
        omega
      have h2n : (tickA s).tx_state = 2 := by
        rw [hstep]
        show (if dec8 s.send_bits = 0 then 3 else 2) = 2
        rw [if_neg hz]
      have hbn : (tickA s).send_bits = k := by
        rw [hstep]
        show dec8 s.send_bits = k
        rw [hb]
        unfold dec8
        omega
      obtain ⟨ihtr, ihst, ihrd⟩ := ih (tickA s) h2n hbn hk1 (by omega)
      have hby : (tickA s).send_byte = s.send_byte >>> 1 := by rw [hstep]
      refine ⟨?_, ?_, ?_⟩
      · show txLevel (tickA s) :: txTrace k (tickA s) = _
        rw [ihtr, hby]
        have hl : txLevel (tickA s) = s.send_byte.testBit 0 := by
          rw [hstep]
          exact level_of_bit _ _
        rw [hl]
        rw [List.range_succ_eq_map, List.map_cons, List.map_map]
        congr 1
        apply List.map_congr_left
        intro i _
        show (s.send_byte >>> 1).testBit i = s.send_byte.testBit (Nat.succ i)
        rw [Nat.testBit_shiftRight]
        congr 1
        omega
      · rw [Function.iterate_succ_apply]
        exact ihst
      · rw [Function.iterate_succ_apply, ihrd, hstep]

/-- C3: for every byte, fdserial_send followed by successive A-compare ticks
drives one start bit low, then the eight data bits LSB-first, then one stop
bit high; the eleventh (Return) tick then sets `send_ready` and restores
Idle. The A compare is written with the current counter value, so the ticks
(and hence the bit windows) recur exactly every TOP + 1 counts. -/
theorem c3_send_waveform (b : Nat) (s : State) (t : Nat)
    (hb : b < 256) (hrdy : s.send_ready = 1) (hc : s.TCNT1 ≤ SERIAL_TOP) :
    txTrace 10 (fdserial_send b s) =
      false :: ((List.range 8).map b.testBit ++ [true]) ∧
    (tickA^[11] (fdserial_send b s)).send_ready = 1 ∧
    (tickA^[11] (fdserial_send b s)).tx_state = 0 ∧
    (counterAt s.TCNT1 t = (fdserial_send b s).OCR1A ↔
      t % (SERIAL_TOP + 1) = 0) := by
  set s0 : State := fdserial_send b s with hs0
  have h1 : s0.tx_state = 1 := by
    rw [hs0]
    rfl
  have hstart := tickA_start s0 h1
  set s1 : State := tickA s0 with hs1
  have h2 : s1.tx_state = 2 := by rw [hstart]
  have hbits : s1.send_bits = 8 := by rw [hstart]
  have hbyte : s1.send_byte = b := by
    rw [hstart]
    show s0.send_byte = b
    rw [hs0]
    rfl
  obtain ⟨htr8, hst8, hrd8⟩ := tx_data_phase 8 s1 h2 hbits (by omega) (by omega)
  set s9 : State := tickA^[8] s1 with hs9
  have hstop := tickA_stop s9 hst8
  set s10 : State := tickA s9 with hs10
  have h4 : s10.tx_state = 4 := by rw [hstop]
  have hret := tickA_return s10 h4
  refine ⟨?_, ?_, ?_, ?_⟩
  · have hsplit : txTrace 10 s0 = txTrace 1 s0 ++ txTrace 9 (tickA^[1] s0) :=
      txTrace_add 1 9 s0
    have hsplit2 : txTrace 9 s1 = txTrace 8 s1 ++ txTrace 1 (tickA^[8] s1) :=
      txTrace_add 8 1 s1
    rw [hsplit, Function.iterate_one, ← hs1, hsplit2, ← hs9, htr8, hbyte]
    have hlev0 : txTrace 1 s0 = [false] := by
      have hu : txTrace 1 s0 = [txLevel (tickA s0)] := rfl
      rw [hu, ← hs1]
      unfold txLevel
      rw [hstart]
      show [(clear8 s0.PORTB S1_TX_PIN).testBit 3] = [false]
      rw [clear8, testBit_land_false _ (by decide)]
    have hlev9 : txTrace 1 s9 = [true] := by
      have hu : txTrace 1 s9 = [txLevel (tickA s9)] := rfl
      rw [hu, ← hs10]
      unfold txLevel
      rw [hstop]
      show [(s9.PORTB ||| S1_TX_PIN).testBit 3] = [true]
      rw [testBit_lor_true _ (by decide)]
    rw [hlev0, hlev9]
    rfl
  · have e1 : tickA^[11] s0 = tickA^[2] (tickA^[9] s0) :=
      Function.iterate_add_apply tickA 2 9 s0
    have e2 : tickA^[9] s0 = tickA^[8] (tickA^[1] s0) :=
      Function.iterate_add_apply tickA 8 1 s0
    have e3 : tickA^[2] s9 = tickA^[1] (tickA^[1] s9) :=
      Function.iterate_add_apply tickA 1 1 s9
    rw [e1, e2, Function.iterate_one, ← hs1, ← hs9, e3, Function.iterate_one,
        ← hs10, hret]
    rfl
  · have e1 : tickA^[11] s0 = tickA^[2] (tickA^[9] s0) :=
      Function.iterate_add_apply tickA 2 9 s0
    have e2 : tickA^[9] s0 = tickA^[8] (tickA^[1] s0) :=
      Function.iterate_add_apply tickA 8 1 s0
    have e3 : tickA^[2] s9 = tickA^[1] (tickA^[1] s9) :=
      Function.iterate_add_apply tickA 1 1 s9
    rw [e1, e2, Function.iterate_one, ← hs1, ← hs9, e3, Function.iterate_one,
        ← hs10, hret]
    rfl
  · have ha : s0.OCR1A = s.TCNT1 := by
      rw [hs0]
      rfl
    rw [ha]
    unfold counterAt
    simp only [SERIAL_TOP] at hc ⊢
    omega

/-- The concrete arming state for the C3 witness: init, then send 0x55. -/
def c3S : State := fdserial_init resetState

/-- C3 witness: the theorem applied at byte 0x55 from the init state; the
waveform is start low, then H L H L H L H L, then stop high. -/
theorem c3_send_waveform_witness :
    (85 < 256 ∧ c3S.send_ready = 1 ∧ c3S.TCNT1 ≤ SERIAL_TOP) ∧
    (txTrace 10 (fdserial_send 85 c3S) =
      false :: ((List.range 8).map (Nat.testBit 85) ++ [true]) ∧
    (tickA^[11] (fdserial_send 85 c3S)).send_ready = 1 ∧
    (tickA^[11] (fdserial_send 85 c3S)).tx_state = 0 ∧
    (counterAt c3S.TCNT1 208 = (fdserial_send 85 c3S).OCR1A ↔
      208 % (SERIAL_TOP + 1) = 0)) :=
  ⟨⟨by decide, by decide, by decide⟩,
   c3_send_waveform 85 c3S 208 (by decide) (by decide) (by decide)⟩

/-! ### C4: the receive data-bit phase -/

/-- Setting bit 7 by OR is addition when bit 7 is clear. -/
theorem lor_128_eq_add : ∀ a, a < 128 → a ||| 128 = a + 128 := by decide

/-- The B tick from StartMid (state 0): arm eight data bits. -/
theorem tickB_single_start (bit : Bool) (s : State) (h : s.rx_state = 0) :
    tickB_single bit s = { s with rx_state := 2, recv_bits := 8 } := by
  unfold tickB_single
  rw [h]
  norm_num

/-- The B tick from DataBit (state 2): shift in the sample from the top,
decrement the bit count, AwaitHigh at zero. -/
theorem tickB_single_data (bit : Bool) (s : State) (h : s.rx_state = 2) :
    tickB_single bit s = { s with
      recv_shift := if bit then (s.recv_shift >>> 1) ||| 128
                    else s.recv_shift >>> 1,
      recv_bits := dec8 s.recv_bits,
      rx_state := if dec8 s.recv_bits = 0 then 3 else 2 } := by
  unfold tickB_single
  rw [h]
  norm_num

/-- The B tick from AwaitHigh (state 3) with the line high: publish the byte
to the single slot, disable the B tick, re-enable the edge detector. -/
theorem tickB_single_await (s : State) (h : s.rx_state = 3) :
    tickB_single true s = enable_int0 (stop_rx
      { s with recv_byte := s.recv_shift, available := 1, rx_state := 0 }) := by
  unfold tickB_single
  rw [h]
  norm_num

/-- One data-bit step, additively: the new shift register value. -/
theorem tickB_shift_val (bit : Bool) (s : State) (h : s.rx_state = 2)
    (hsh : s.recv_shift < 256) :
    (tickB_single bit s).recv_shift =
      s.recv_shift / 2 + (if bit then 128 else 0) := by
  rw [tickB_single_data bit s h]
  show (if bit then (s.recv_shift >>> 1) ||| 128 else s.recv_shift >>> 1) = _
  rw [Nat.shiftRight_one]
  cases bit
  · simp
  · simp only [if_pos]
    rw [lor_128_eq_add _ (by omega)]

/-- The core arithmetic of LSB-first assembly: pushing one sample in from the
top then accounting for `k` further shifts. -/
theorem shift_step_arith (x bv nt k : Nat) (hk : k ≤ 7) :
    (x / 2 + bv * 128) / 2 ^ k + nt * 2 ^ (8 - k) =
    x / 2 ^ (k + 1) + (bv + 2 * nt) * 2 ^ (8 - (k + 1)) := by
  obtain ⟨j, hj⟩ : ∃ j, k + j = 7 := ⟨7 - k, by omega⟩
  have h8k : 8 - k = j + 1 := by omega
  have h8k1 : 8 - (k + 1) = j := by omega
  have h128 : bv * 128 = bv * 2 ^ j * 2 ^ k := by
    rw [mul_assoc, ← pow_add]
    rw [show j + k = 7 from by omega]
    norm_num
  have hdd : x / 2 / 2 ^ k = x / 2 ^ (k + 1) := by
    rw [Nat.div_div_eq_div_mul, pow_succ, mul_comm 2 (2 ^ k)]
  rw [h128, Nat.add_mul_div_right _ _ (Nat.two_pow_pos k), hdd, h8k, h8k1]
  ring

/-- The data-bit phase: from DataBit with `recv_bits = |l|` (`1 ≤ |l| ≤ 8`),
running the B tick over the samples `l` shifts them all in from the top and
moves to AwaitHigh when the count hits zero. -/
theorem rx_data_phase (l : List Bool) : ∀ s : State, s.rx_state = 2 →
    s.recv_bits = l.length → 1 ≤ l.length → l.length ≤ 8 → s.recv_shift < 256 →
    (runB l s).recv_shift =
      s.recv_shift / 2 ^ l.length + natOfBits l * 2 ^ (8 - l.length) ∧
    (runB l s).recv_shift < 256 ∧
    (runB l s).rx_state = 3 := by
  induction l with
  | nil => intro s _ _ h1 _ _; simp at h1
  | cons b t ih =>
    intro s h2 hb h1 h8 hsh
    have hstep := tickB_single_data b s h2
    have hv := tickB_shift_val b s h2 hsh
    have hrun : runB (b :: t) s = runB t (tickB_single b s) := rfl
    by_cases ht : t = []
    · subst ht
      have hz : dec8 s.recv_bits = 0 := by
        rw [hb]
        show dec8 1 = 0
        decide
      have hsf : (tickB_single b s).recv_shift =
          s.recv_shift / 2 ^ 1 + natOfBits [b] * 2 ^ (8 - 1) := by
        rw [hv]
        show _ = s.recv_shift / 2 ^ 1 + ((if b then 1 else 0) + 2 * 0) * 2 ^ (8 - 1)
        cases b <;> simp <;> omega
      refine ⟨hsf, ?_, ?_⟩
      · rw [hrun]
        show (tickB_single b s).recv_shift < 256
        rw [hv]
        cases b <;> simp <;> omega
      · rw [hrun]
        show (tickB_single b s).rx_state = 3
        rw [hstep]
        show (if dec8 s.recv_bits = 0 then 3 else 2) = 3
        rw [if_pos hz]
    · have hlt : 1 ≤ t.length := by
        cases t
        · exact absurd rfl ht
        · simp
      have hlen : (b :: t).length = t.length + 1 := rfl
      have hz : dec8 s.recv_bits ≠ 0 := by
        rw [hb, hlen]
        unfold dec8
        omega
      have h2n : (tickB_single b s).rx_state = 2 := by
        rw [hstep]
        show (if dec8 s.recv_bits = 0 then 3 else 2) = 2
        rw [if_neg hz]
      have hbn : (tickB_single b s).recv_bits = t.length := by
        rw [hstep]
        show dec8 s.recv_bits = t.length
        rw [hb, hlen]
        unfold dec8
        omega
      have hshn : (tickB_single b s).recv_shift < 256 := by
        rw [hv]
        cases b <;> simp <;> omega
      obtain ⟨ihf, ihbd, ihst⟩ :=
        ih (tickB_single b s) h2n hbn hlt (by rw [hlen] at h8; omega) hshn
      refine ⟨?_, ?_, ?_⟩
      · rw [hrun, ihf, hv, hlen]
        have hnat : natOfBits (b :: t) = (if b then 1 else 0) + 2 * natOfBits t :=
          rfl
        rw [hnat]
        have harith := shift_step_arith s.recv_shift (if b then 1 else 0)
          (natOfBits t) t.length (by rw [hlen] at h8; omega)
        cases b
        · simpa using harith
        · simpa using harith
      · rw [hrun]
        exact ihbd
      · rw [hrun]
        exact ihst

/-- The bits of the LSB-first value of a sample list are the samples. -/
theorem natOfBits_testBit (l : List Bool) : ∀ i, (natOfBits l).testBit i =
    l.getD i false := by
  induction l with
  | nil =>
    intro i
    show Nat.testBit 0 i = ([] : List Bool).getD i false
    rw [Nat.zero_testBit, List.getD_nil]
  | cons b t ih =>
    intro i
    have hnat : natOfBits (b :: t) = (if b then 1 else 0) + 2 * natOfBits t := rfl
    cases i with
    | zero =>
      rw [hnat, Nat.testBit_zero, List.getD_cons_zero]
      cases b <;> simp <;> omega
    | succ i =>
      rw [hnat, Nat.testBit_succ, List.getD_cons_succ]
      have hd : ((if b then 1 else 0) + 2 * natOfBits t) / 2 = natOfBits t := by
        cases b <;> simp <;> omega
      rw [hd]
      exact ih i

/-- Sample lists of length 8 assemble to values below 256. -/
theorem natOfBits_lt (l : List Bool) : natOfBits l < 2 ^ l.length := by
  induction l with
  | nil => decide
  | cons b t ih =>
    have hnat : natOfBits (b :: t) = (if b then 1 else 0) + 2 * natOfBits t := rfl
    have hlen : (b :: t).length = t.length + 1 := rfl
    rw [hnat, hlen, pow_succ]
    cases b <;> simp <;> omega

/-- C4: running the DataBit state over eight sampled levels assembles them
LSB-first into `recv_shift` (bit `i` of the result is the `i`-th sample) and
then moves to AwaitHigh. -/
theorem c4_recv_databits (l : List Bool) (s : State) (i : Nat)
    (hl : l.length = 8) (hi : i < 8) (h2 : s.rx_state = 2) (hb : s.recv_bits = 8)
    (hsh : s.recv_shift < 256) :
    (runB l s).recv_shift = natOfBits l ∧
    (runB l s).recv_shift.testBit i = l.getD i false ∧
    (runB l s).rx_state = 3 := by
  obtain ⟨hf, hbd, hst⟩ := rx_data_phase l s h2 (by rw [hb, hl]) (by omega)
    (by omega) hsh
  have hv : (runB l s).recv_shift = natOfBits l := by
    rw [hf, hl]
    have h0 : s.recv_shift / 2 ^ 8 = 0 := Nat.div_eq_of_lt (by omega)
    rw [h0]
    simp
  refine ⟨hv, ?_, hst⟩
  rw [hv]
  exact natOfBits_testBit l i

/-- The concrete state for the C4 witness. -/
def c4S : State :=
  { resetState with rx_state := 2, recv_bits := 8, recv_shift := 200 }

/-- The concrete sample list for the C4 witness (value 0x69). -/
def c4L : List Bool := [true, false, false, true, false, true, true, false]

/-- C4 witness: the theorem applied to a concrete sample list. -/
theorem c4_recv_databits_witness :
    (c4L.length = 8 ∧ (5 : Nat) < 8 ∧ c4S.rx_state = 2 ∧ c4S.recv_bits = 8 ∧
     c4S.recv_shift < 256) ∧
    ((runB c4L c4S).recv_shift = natOfBits c4L ∧
     (runB c4L c4S).recv_shift.testBit 5 = c4L.getD 5 false ∧
     (runB c4L c4S).rx_state = 3) :=
  ⟨⟨by decide, by decide, by decide, by decide, by decide⟩,
   c4_recv_databits c4L c4S 5 (by decide) (by decide) (by decide) (by decide)
     (by decide)⟩

/-! ### C7: the concrete receive scenario at phase 50 -/

/-- Prior state for the C7 scenario: power-on reset with a stale (nonzero)
shift register, to show the result does not depend on it. -/
def c7Prior : State := { resetState with recv_shift := 55 }

/-- The state after init, the counter having advanced to 50, at which point
the falling edge fires INT0. -/
def c7Edge : State := ISR_INT0 { fdserial_init c7Prior with TCNT1 := 50 }

/-- The B-tick samples of the scenario in time order: the start-bit midpoint
(low), the eight data-bit samples L H L H L H L H, and the stop bit (high). -/
def c7Samples : List Bool :=
  [false, false, true, false, true, false, true, false, true, true]

/-- The state after the ten B ticks of the frame. -/
def c7End : State := runB c7Samples c7Edge

/-- C7: counterexample. With data-bit samples L H L H L H L H (LSB first)
the assembled byte has bits 1, 3, 5, 7 set, so fdserial_recv returns
0xAA = 170, not 0xA5 = 165 as the claim states. -/
theorem c7_recv_scenario_counterexample :
    (fdserial_recv_single c7End).1 ≠ 165 ∧ (fdserial_recv_single c7End).1 = 170 := by
  decide

/-- C7 (amended): after a falling edge at counter phase 50 the handler
schedules the B compare at 154 = (50 + 104) % 208, the counter reaches 154
exactly at offsets congruent to HALFBIT modulo TOP + 1 (first fire 104 counts
after the edge, then every 208 counts, always at counter value 154), and with
data-bit samples L H L H L H L H the byte is published and fdserial_recv
returns 0xAA = 170, clearing `available`. -/
theorem c7_recv_scenario_amended (t : Nat) :
    c7Edge.OCR1B = 154 ∧
    (counterAt 50 t = c7Edge.OCR1B ↔ t % (SERIAL_TOP + 1) = SERIAL_HALFBIT) ∧
    c7End.available = 1 ∧
    (fdserial_recv_single c7End).1 = 170 ∧
    (fdserial_recv_single c7End).2.available = 0 := by
  refine ⟨by decide, ?_, by decide, by decide, by decide⟩
  have h : c7Edge.OCR1B = 154 := by decide
  rw [h]
  unfold counterAt
  simp only [SERIAL_TOP, SERIAL_HALFBIT]
  omega

/-- C7 witness: the amended theorem at offset 104 (the first B fire). -/
theorem c7_recv_scenario_amended_witness :
    c7Edge.OCR1B = 154 ∧
    (counterAt 50 104 = c7Edge.OCR1B ↔ 104 % (SERIAL_TOP + 1) = SERIAL_HALFBIT) ∧
    c7End.available = 1 ∧
    (fdserial_recv_single c7End).1 = 170 ∧
    (fdserial_recv_single c7End).2.available = 0 :=
  c7_recv_scenario_amended 104

/-! ### C10: the ring-buffer invariant -/

/-- Reachability of ring-mode states: initialization, any B tick (with any
sampled level), and any read of a nonempty ring (the guard of the busy-wait
in fdserial_recv). -/
inductive ReachRing (N : Nat) : State → Prop
  | init (s : State) : ReachRing N (fdserial_init s)
  | tick (b : Bool) (s : State) : ReachRing N s → ReachRing N (tickB_ring N b s)
  | recv (s : State) : ReachRing N s → s.rx_head ≠ s.rx_tail →
      ReachRing N (fdserial_recv_ring N s).2

/-- The only effect any B tick can have on the ring indices: leave both
alone, or advance the head and possibly (on collision) the tail. -/
theorem tickB_ring_indices (N : Nat) (bit : Bool) (s : State) :
    ((tickB_ring N bit s).rx_head = s.rx_head ∧
     (tickB_ring N bit s).rx_tail = s.rx_tail) ∨
    ((tickB_ring N bit s).rx_head = wrapIdx N s.rx_head ∧
     ((tickB_ring N bit s).rx_tail = s.rx_tail ∨
      (tickB_ring N bit s).rx_tail = wrapIdx N s.rx_tail)) := by
  unfold tickB_ring
  split_ifs <;> simp [enable_int0, stop_rx]

/-- Every reachable ring state keeps both indices below the capacity. -/
theorem reach_ring_bounds {N : Nat} (hN : 0 < N) :
    ∀ {s : State}, ReachRing N s → s.rx_head < N ∧ s.rx_tail < N := by
  intro s h
  induction h with
  | init s =>
    constructor
    · show (0 : Nat) < N
      exact hN
    · show (0 : Nat) < N
      exact hN
  | tick b s hs ih =>
    rcases tickB_ring_indices N b s with ⟨hh, ht⟩ | ⟨hh, ht | ht⟩
    · rw [hh, ht]
      exact ih
    · rw [hh, ht]
      exact ⟨wrapIdx_lt hN ih.1, ih.2⟩
    · rw [hh, ht]
      exact ⟨wrapIdx_lt hN ih.1, wrapIdx_lt hN ih.2⟩
  | recv s hs hne ih =>
    constructor
    · show s.rx_head < N
      exact ih.1
    · show wrapIdx N s.rx_tail < N
      exact wrapIdx_lt hN ih.2

/-- C10: in ring mode every reachable state keeps `rx_head` and `rx_tail` in
`[0, N)`; the available count is at most `N - 1` (never as large as
RING_BUFFER) and is zero exactly when `rx_head = rx_tail` (empty); and any
publication from a reachable state leaves `rx_head ≠ rx_tail`, because a head
advance that collides with the tail immediately advances the tail. -/
theorem c10_ring_invariant (N : Nat) (s : State) (b : Nat)
    (h2 : 2 ≤ N) (h128 : N ≤ 128) (hr : ReachRing N s) :
    (s.rx_head < N ∧ s.rx_tail < N) ∧
    fdserial_available_ring N s ≤ N - 1 ∧
    (fdserial_available_ring N s = 0 ↔ s.rx_head = s.rx_tail) ∧
    (ringPublish N b s).rx_head ≠ (ringPublish N b s).rx_tail := by
  obtain ⟨hh, ht⟩ := reach_ring_bounds (by omega) hr
  have he := avail_ring_eq N s (by omega) h128 hh ht
  refine ⟨⟨hh, ht⟩, ?_, ?_, ?_⟩
  · rw [he]
    have hm := Nat.mod_lt (s.rx_head + N - s.rx_tail) (show 0 < N by omega)
    omega
  · rw [he]
    constructor
    · intro h0
      rcases Nat.lt_or_ge s.rx_head s.rx_tail with hlt | hge
      · rw [Nat.mod_eq_of_lt (by omega)] at h0
        omega
      · have h1 : s.rx_head + N - s.rx_tail = (s.rx_head - s.rx_tail) + N := by
          omega
        rw [h1, Nat.add_mod_right, Nat.mod_eq_of_lt (by omega)] at h0
        omega
    · intro h
      rw [h]
      have h1 : s.rx_tail + N - s.rx_tail = N := by omega
      rw [h1, Nat.mod_self]
  · unfold ringPublish tickB_ring
    norm_num
    show wrapIdx N s.rx_head ≠
      (if wrapIdx N s.rx_head = s.rx_tail then wrapIdx N s.rx_tail else s.rx_tail)
    split
    next heq =>
      rw [heq]
      intro hcontra
      exact wrapIdx_ne h2 ht hcontra.symm
    next hne => exact hne

/-- C10 witness: the theorem applied at N = 4 to the init state. -/
theorem c10_ring_invariant_witness :
    2 ≤ 4 ∧ (4 : Nat) ≤ 128 ∧ ReachRing 4 (fdserial_init resetState) ∧
    (((fdserial_init resetState).rx_head < 4 ∧
      (fdserial_init resetState).rx_tail < 4) ∧
     fdserial_available_ring 4 (fdserial_init resetState) ≤ 4 - 1 ∧
     (fdserial_available_ring 4 (fdserial_init resetState) = 0 ↔
       (fdserial_init resetState).rx_head = (fdserial_init resetState).rx_tail) ∧
     (ringPublish 4 9 (fdserial_init resetState)).rx_head ≠
       (ringPublish 4 9 (fdserial_init resetState)).rx_tail) :=
  ⟨by decide, by decide, ReachRing.init resetState,
   c10_ring_invariant 4 (fdserial_init resetState) 9 (by decide) (by decide)
     (ReachRing.init resetState)⟩

/-! ### C9: fdserial_available -/

/-- C9: in ring mode, for in-range head and tail indices the available count
is `(rx_head + N - rx_tail) % N` (head minus tail, plus N when negative), the
number of unread bytes; in single-slot mode the result is the `available`
flag, hence 0 or 1 whenever that flag is boolean-valued. -/
theorem c9_available_count (N : Nat) (s : State) (hN0 : 0 < N) (hN : N ≤ 128)
    (hh : s.rx_head < N) (ht : s.rx_tail < N) :
    fdserial_available_ring N s = (s.rx_head + N - s.rx_tail) % N ∧
    (s.available ≤ 1 → fdserial_available_single s ≤ 1) := by
  exact ⟨avail_ring_eq N s hN0 hN hh ht, fun h => h⟩

/-- C9 witness: the theorem applied at N = 4 with head 1, tail 3. -/
theorem c9_available_count_witness :
    0 < 4 ∧ 4 ≤ 128 ∧
    ({ resetState with rx_head := 1, rx_tail := 3 } : State).rx_head < 4 ∧
    ({ resetState with rx_head := 1, rx_tail := 3 } : State).rx_tail < 4 ∧
    (fdserial_available_ring 4 { resetState with rx_head := 1, rx_tail := 3 } =
      (({ resetState with rx_head := 1, rx_tail := 3 } : State).rx_head + 4 -
        ({ resetState with rx_head := 1, rx_tail := 3 } : State).rx_tail) % 4 ∧
     (({ resetState with rx_head := 1, rx_tail := 3 } : State).available ≤ 1 →
       fdserial_available_single { resetState with rx_head := 1, rx_tail := 3 } ≤ 1)) :=
  ⟨by decide, by decide, by decide, by decide,
   c9_available_count 4 _ (by decide) (by decide) (by decide) (by decide)⟩

end FdSerial
